import Mathlib

/-!
Shallow embedding of `getzotero.py` (velikodniy/zotero-deb).

The program is a linear five-stage pipeline: download a tar archive for a
requested CPU architecture into a fresh scratch directory, extract it in
place, read a version string from `application.ini`, rearrange the tree into
a Debian package layout, shell out to `dpkg-deb`, and finally delete the
scratch directory.

The embedding models the outside world explicitly:
* the filesystem is an association list from paths (component lists) to
  entry data (directory, text file, tar archive, or an unexamined blob);
* the network is a function from URL to a response (a body, an HTTP error
  response as raised by `urllib.error.HTTPError`, or another transport
  failure as raised by an uncaught `urllib.error.URLError`);
* the external `dpkg-deb` process is described by an `Env` field saying
  whether it writes its output file, plus its exit status (which the
  source never inspects);
* every run keeps a trace of I/O events and printed output lines, and each
  stage either returns an updated world or fails the way the Python code
  does (a `sys.exit` message, or an uncaught exception kind).

Python library primitives used by the source (`ConfigParser`, `str.join`,
`Path.rename`, `tarfile.extractall`, `shutil.rmtree`) are given direct
executable models below, next to the function that uses them.  The
`ConfigParser` model follows the stdlib reader and `get` against their
CPython source: continuation and blank lines inside values, comment
lines, strict duplicate-section and duplicate-option errors, the
missing-section-header error, the parsing error raised after the whole
file is read, the `DEFAULT`-section fallback of `get`, and
`BasicInterpolation` with its depth limit.
-/

/-- A filesystem path, as a list of components. -/
abbrev FPath := List String

/-- One member of a tar archive: a directory or a text file with content. -/
inductive TarEntry where
  | dirT (path : FPath)
  | fileT (path : FPath) (content : String)
deriving DecidableEq

/-- Data stored at a filesystem path: a directory, a text file, a tar
archive (the downloaded body, when it is a well-formed archive), or an
unexamined binary blob (the `.deb` output, or a malformed download). -/
inductive EntryData where
  | dirE
  | textE (s : String)
  | tarE (entries : List TarEntry)
  | blobE
deriving DecidableEq

/-- The path of a tar member, relative to the extraction directory. -/
def tarPath : TarEntry → FPath
  | .dirT p => p
  | .fileT p _ => p

/-- The filesystem data a tar member produces when extracted. -/
def tarData : TarEntry → EntryData
  | .dirT _ => .dirE
  | .fileT _ c => .textE c

/-- The filesystem: an association list from paths to entry data. -/
abbrev FS := List (FPath × EntryData)

/-- First-match lookup in the filesystem. -/
def fsLookup : FS → FPath → Option EntryData
  | [], _ => none
  | (q, d) :: rest, p => if q = p then some d else fsLookup rest p

/-- Remove every binding of an exact path (`Path.unlink`). -/
def fsDelete : FS → FPath → FS
  | [], _ => []
  | (q, d) :: rest, p => if q = p then fsDelete rest p else (q, d) :: fsDelete rest p

/-- Create or overwrite the entry at a path. -/
def fsSet (fs : FS) (p : FPath) (d : EntryData) : FS :=
  (p, d) :: fsDelete fs p

/-- Model item `startsWithPath root q` is true when `root` is an initial segment of
`q`, that is, `q` lies at or below `root`. -/
def startsWithPath : FPath → FPath → Bool
  | [], _ => true
  | _ :: _, [] => false
  | a :: as, b :: bs => if a = b then startsWithPath as bs else false

/-- Replace the leading `src` segment of a key by `dst`; keys not below
`src` are unchanged.  This is the key map performed by `Path.rename` on a
directory: everything below the renamed directory moves with it. -/
def remapKey (src dst q : FPath) : FPath :=
  if startsWithPath src q then dst ++ q.drop src.length else q

/-- Model of `Path.rename` on the association-list filesystem: every
binding at or below `src` has its key re-rooted at `dst`. -/
def fsRenameAll : FS → FPath → FPath → FS
  | [], _, _ => []
  | (q, d) :: rest, src, dst => (remapKey src dst q, d) :: fsRenameAll rest src dst

/-- Model of `shutil.rmtree`: drop every binding at or below `p`. -/
def fsRmtreeAll : FS → FPath → FS
  | [], _ => []
  | (q, d) :: rest, p =>
    if startsWithPath p q then fsRmtreeAll rest p else (q, d) :: fsRmtreeAll rest p

/-- Model of `tarfile.extractall`: write every member of the archive, in
order, under the extraction directory `tmp`. -/
def extractAll : FS → FPath → List TarEntry → FS
  | fs, _, [] => fs
  | fs, tmp, e :: rest => extractAll (fsSet fs (tmp ++ tarPath e) (tarData e)) tmp rest

/-- Model of one `parents=True` ancestor step of `Path.mkdir`: create the
directory only when the path is still absent. -/
def ensureDir (fs : FS) (p : FPath) : FS :=
  match fsLookup fs p with
  | some _ => fs
  | none => fsSet fs p .dirE

/-- Whitespace as stripped by `str.strip` / the `ConfigParser` patterns
around lines, keys and values (the newline itself has already been
consumed by the line splitter). -/
def isWS (c : Char) : Bool :=
  c = ' ' || c = '\t' || c = '\r' || c = '\x0b' || c = '\x0c'

/-- Whitespace including the newline, as stripped by `str.rstrip` when
`ConfigParser` joins the collected lines of a multi-line value. -/
def isWSNL (c : Char) : Bool :=
  isWS c || c = '\n'

/-- Strip leading and trailing whitespace from a character list. -/
def trimChars (l : List Char) : List Char :=
  ((l.dropWhile isWS).reverse.dropWhile isWS).reverse

/-- Split a character list at newline characters. -/
def splitLines : List Char → List (List Char)
  | [] => [[]]
  | c :: rest =>
    if c = '\n' then [] :: splitLines rest
    else
      match splitLines rest with
      | [] => [[c]]
      | l :: ls => (c :: l) :: ls

/-- The part of `l` strictly before its last close-bracket, when `l` has
one: the greedy group of the `ConfigParser` section-header pattern. -/
def beforeLastClose : List Char → Option (List Char)
  | [] => none
  | c :: rest =>
    match beforeLastClose rest with
    | some t => some (c :: t)
    | none => if c = ']' then some [] else none

/-- Recognise a section header on a stripped line and return the section
name: `ConfigParser` matches a leading open bracket, a non-empty greedy
group and a close bracket, ignoring any text after the last close
bracket. -/
def headerName (t : List Char) : Option (List Char) :=
  match t with
  | [] => none
  | c :: rest =>
    if c = '[' then
      match beforeLastClose rest with
      | some h => if h.isEmpty then none else some h
      | none => none
    else none

/-- Split a stripped line at its first `=` or `:` delimiter into key and
value parts (the `ConfigParser` option pattern, whose option group is
non-greedy). -/
def breakKV : List Char → Option (List Char × List Char)
  | [] => none
  | c :: rest =>
    if c = '=' || c = ':' then some ([], rest)
    else
      match breakKV rest with
      | some (k, v) => some (c :: k, v)
      | none => none

/-- Number of leading whitespace characters of a raw line: the
indentation level `ConfigParser` compares to detect continuation lines. -/
def lineIndent (line : List Char) : Nat :=
  (line.takeWhile isWS).length

/-- True when the stripped line starts with one of the full-line comment
markers `#` or `;`. -/
def isCommentLine : List Char → Bool
  | [] => false
  | c :: _ => c = '#' || c = ';'

/-- Option table while reading: each option holds the list of collected
value lines (first line, continuation lines, embedded blank lines). -/
abbrev OptLines := List (List Char × List (List Char))

/-- Append one collected line to the value of option `k`. -/
def updLines : OptLines → List Char → List Char → OptLines
  | [], _, _ => []
  | (k2, ls) :: rest, k, v =>
    if k2 = k then (k2, ls ++ [v]) :: rest else (k2, ls) :: updLines rest k v

/-- True when the option table already holds key `k` (strict-mode
duplicate detection). -/
def hasOpt : OptLines → List Char → Bool
  | [], _ => false
  | (k2, _) :: rest, k => if k2 = k then true else hasOpt rest k

/-- State of `ConfigParser.read_file` while scanning lines: finished
sections in order, the options of the section being read, the accumulated
`DEFAULT` options, the current section and option names, the indentation
of the last non-continuation line, and whether a parsing error has been
recorded (it is raised only after the whole file is read). -/
structure PSt where
  done : List (List Char × OptLines)
  curOpts : OptLines
  defs : OptLines
  cur : Option (List Char)
  curopt : Option (List Char)
  indent : Nat
  perr : Bool

/-- Initial reader state. -/
def initPSt : PSt :=
  { done := [], curOpts := [], defs := [], cur := none, curopt := none,
    indent := 0, perr := false }

/-- Close the section currently being read; the `DEFAULT` options live in
their own accumulator and are never moved. -/
def flushCur (st : PSt) : PSt :=
  match st.cur with
  | some n =>
    if n = "DEFAULT".data then st
    else { st with done := st.done ++ [(n, st.curOpts)], curOpts := [] }
  | none => st

/-- Append a collected line to the value of the option being read, when
one is open (used for continuation lines and embedded blank lines). -/
def stAppend (st : PSt) (val : List Char) : PSt :=
  match st.cur, st.curopt with
  | some sct, some o =>
    if sct = "DEFAULT".data then { st with defs := updLines st.defs o val }
    else { st with curOpts := updLines st.curOpts o val }
  | _, _ => st

/-- Record a fresh option with its first value line and make it the open
option. -/
def stStore (st : PSt) (sct key vval : List Char) : PSt :=
  if sct = "DEFAULT".data then
    { st with defs := st.defs ++ [(key, [vval])], curopt := some key }
  else
    { st with curOpts := st.curOpts ++ [(key, [vval])], curopt := some key }

/-- True when a section of this name has already been started
(strict-mode duplicate-section detection). -/
def sectionSeen (st : PSt) (h : List Char) : Bool :=
  (st.done.any fun p => decide (p.1 = h)) || decide (st.cur = some h)

/-- Process one raw line of the INI text, mirroring the body of the
`ConfigParser._read` loop.  Comment lines are skipped; blank lines append
an empty line to the open option value; a non-blank line indented more
deeply than the last non-continuation line, while an option is open,
continues that option value; otherwise the line must be a section header
(re-entering `DEFAULT` is allowed, re-entering any other section raises
`DuplicateSectionError`) or a delimited option line (an option before
any header raises `MissingSectionHeaderError`, a duplicate option in the
same section raises `DuplicateOptionError`, an empty option name records
a `ParsingError`), and a line matching no form records a `ParsingError`
that is raised once the file ends. -/
def procLine (st : PSt) (line : List Char) : Except String PSt :=
  let value := trimChars line
  if isCommentLine value then .ok st
  else if value.isEmpty then .ok (stAppend st [])
  else
    let ind := lineIndent line
    if st.cur.isSome && st.curopt.isSome && decide (ind > st.indent) then
      .ok (stAppend st value)
    else
      let st := { st with indent := ind }
      match headerName value with
      | some h =>
        if h = "DEFAULT".data then
          .ok { flushCur st with cur := some h, curopt := none }
        else if sectionSeen st h then .error "DuplicateSectionError"
        else .ok { flushCur st with cur := some h, curopt := none }
      | none =>
        match st.cur with
        | none => .error "MissingSectionHeaderError"
        | some sct =>
          match breakKV value with
          | some (k, vv) =>
            let key := (trimChars k).map Char.toLower
            let st := if key.isEmpty then { st with perr := true } else st
            if (if sct = "DEFAULT".data then hasOpt st.defs key else hasOpt st.curOpts key) then
              .error "DuplicateOptionError"
            else .ok (stStore st sct key (trimChars vv))
          | none => .ok { st with perr := true }

/-- Run the reader over all lines, stopping at the first raised error. -/
def procLines : PSt → List (List Char) → Except String PSt
  | st, [] => .ok st
  | st, l :: rest =>
    match procLine st l with
    | .error e => .error e
    | .ok st2 => procLines st2 rest

/-- Join collected value lines with newlines. -/
def intercalateNL : List (List Char) → List Char
  | [] => []
  | [l] => l
  | l :: rest => l ++ '\n' :: intercalateNL rest

/-- The final value of an option: its collected lines joined with
newlines, with trailing whitespace stripped, as `ConfigParser` joins
multi-line values after reading. -/
def joinVal (lines : List (List Char)) : List Char :=
  ((intercalateNL lines).reverse.dropWhile isWSNL).reverse

/-- A parsed configuration: the proper sections in file order and the
`DEFAULT` options, with option values joined. -/
structure Cfg where
  sections : List (List Char × List (List Char × List Char))
  defaults : List (List Char × List Char)

/-- Model of `ConfigParser.read_file`: scan every line, then raise the
recorded `ParsingError` when some line matched no form, and otherwise
produce the section and `DEFAULT` tables with joined values. -/
def parseIni (s : String) : Except String Cfg :=
  match procLines initPSt (splitLines s.data) with
  | .error e => .error e
  | .ok st =>
    let st2 := flushCur st
    if st2.perr then .error "ParsingError"
    else
      .ok { sections := st2.done.map (fun p => (p.1, p.2.map (fun q => (q.1, joinVal q.2)))),
            defaults := st2.defs.map (fun q => (q.1, joinVal q.2)) }

/-- Scanner states of `BasicInterpolation`: plain text, just after a
percent sign, inside a parenthesised reference, or just after its close
parenthesis awaiting the conversion letter. -/
inductive IMode where
  | plain
  | afterPct
  | inRef (acc : List Char)
  | afterRef (key : List Char)

/-- One pass of `BasicInterpolation` over a value: a doubled percent sign
is a literal percent, a parenthesised reference followed by the letter s
is replaced through `resolve`, and any other use of the percent sign — or
an unterminated or empty reference, or a conversion letter other than s —
raises `InterpolationSyntaxError`. -/
def interpScan (resolve : List Char → Except String (List Char)) :
    IMode → List Char → Except String (List Char)
  | .plain, [] => .ok []
  | .plain, c :: rest =>
    if c = '%' then interpScan resolve .afterPct rest
    else
      match interpScan resolve .plain rest with
      | .ok t => .ok (c :: t)
      | .error e => .error e
  | .afterPct, [] => .error "InterpolationSyntaxError"
  | .afterPct, c :: rest =>
    if c = '%' then
      match interpScan resolve .plain rest with
      | .ok t => .ok ('%' :: t)
      | .error e => .error e
    else if c = '(' then interpScan resolve (.inRef []) rest
    else .error "InterpolationSyntaxError"
  | .inRef _, [] => .error "InterpolationSyntaxError"
  | .inRef acc, c :: rest =>
    if c = ')' then
      if acc.isEmpty then .error "InterpolationSyntaxError"
      else interpScan resolve (.afterRef acc.reverse) rest
    else interpScan resolve (.inRef (c :: acc)) rest
  | .afterRef _, [] => .error "InterpolationSyntaxError"
  | .afterRef key, c :: rest =>
    if c = 's' then
      match resolve key with
      | .ok v =>
        match interpScan resolve .plain rest with
        | .ok t => .ok (v ++ t)
        | .error e => .error e
      | .error e => .error e
    else .error "InterpolationSyntaxError"

/-- True when a percent sign occurs in the value: the test deciding
whether a substituted value is itself interpolated recursively. -/
def hasPercent (l : List Char) : Bool :=
  l.any fun c => decide (c = '%')

/-- Model of `BasicInterpolation` with its depth limit: `fuel` counts the
remaining allowed nesting levels — ten at the initial call, one fewer for
each recursively interpolated substitution; exhausting it raises
`InterpolationDepthError`.  A referenced key is looked up lowercased; a
missing one raises `InterpolationMissingOptionError`. -/
def interpDepth (mp : List Char → Option (List Char)) :
    Nat → List Char → Except String (List Char)
  | 0, _ => .error "InterpolationDepthError"
  | fuel + 1, v =>
    interpScan
      (fun key =>
        match mp (key.map Char.toLower) with
        | none => .error "InterpolationMissingOptionError"
        | some v2 => if hasPercent v2 then interpDepth mp fuel v2 else .ok v2)
      .plain v

/-- Association lookup in a joined option table. -/
def lookupOpt : List (List Char × List Char) → List Char → Option (List Char)
  | [], _ => none
  | (k2, v) :: rest, k => if k2 = k then some v else lookupOpt rest k

/-- Association lookup of a section table. -/
def lookupSec : List (List Char × List (List Char × List Char)) → List Char →
    Option (List (List Char × List Char))
  | [], _ => none
  | (n, opts) :: rest, h => if n = h then some opts else lookupSec rest h

/-- The chain map `ConfigParser.get` reads from: the requested section
first, with the `DEFAULT` options as fallback. -/
def chainLookup (opts defs : List (List Char × List Char)) (k : List Char) :
    Option (List Char) :=
  match lookupOpt opts k with
  | some v => some v
  | none => lookupOpt defs k

/-- Model of `ConfigParser.get(section, option)`: `NoSectionError` when
the section was never declared (`DEFAULT` itself is always available),
`NoOptionError` when neither the section nor `DEFAULT` holds the
lowercased option, and otherwise the value after `BasicInterpolation`
over the same chain map. -/
def cpGet (c : Cfg) (sect optName : String) : Except String String :=
  let key := optName.data.map Char.toLower
  let run := fun (opts : List (List Char × List Char)) =>
    match chainLookup opts c.defaults key with
    | none => Except.error "NoOptionError"
    | some v =>
      match interpDepth (chainLookup opts c.defaults) 10 v with
      | .ok r => Except.ok (String.mk r)
      | .error e => Except.error e
  match lookupSec c.sections sect.data with
  | some opts => run opts
  | none =>
    if sect.data = "DEFAULT".data then run []
    else .error "NoSectionError"

/-- The composition `ConfigParser.read_file` then `get(section, option)`
that `get_version` performs: a read error passes through, and otherwise
the pair is looked up with the `DEFAULT` fallback and interpolation of
`cpGet`. -/
def iniGet (cfg : Except String Cfg) (sec key : String) : Except String String :=
  match cfg with
  | .error k => .error k
  | .ok c => cpGet c sec key

/-- Model item `startsList n l` is true when `n` is an initial segment of `l`. -/
def startsList : List Char → List Char → Bool
  | [], _ => true
  | _ :: _, [] => false
  | a :: as, b :: bs => if a = b then startsList as bs else false

/-- Model item `occursIn n l` is true when `n` occurs as a contiguous run inside `l`. -/
def occursIn (n : List Char) : List Char → Bool
  | [] => startsList n []
  | c :: rest => startsList n (c :: rest) || occursIn n rest

/-- Model item `substrOccurs needle hay` is true when `needle` occurs as a contiguous
substring of `hay`. -/
def substrOccurs (needle hay : String) : Bool :=
  occursIn needle.data hay.data

/-- Join path components with `/` separators. -/
def joinPath : FPath → String
  | [] => ""
  | [x] => x
  | x :: rest => x ++ "/" ++ joinPath rest

/-- Render an absolute path the way `str(tmp_dir)` does. -/
def pathStr (p : FPath) : String :=
  "/" ++ joinPath p

/-- One observable I/O action of the pipeline. -/
inductive Event where
  | evMkdir (p : FPath)
  | evNet (url : String)
  | evWrite (p : FPath) (d : EntryData)
  | evRead (p : FPath)
  | evExtract (p : FPath)
  | evUnlink (p : FPath)
  | evRename (src dst : FPath)
  | evRun (cmd : List String)
  | evRmtree (p : FPath)
deriving DecidableEq

/-- The world a run acts on: the filesystem, the lines printed so far, and
the trace of I/O events performed so far. -/
structure World where
  fs : FS
  output : List String
  events : List Event
deriving DecidableEq

/-- How a run terminates abnormally: `exitMsg` is a `sys.exit(message)`
(message printed, non-zero exit status), `pyError` is an uncaught Python
exception of the given kind (traceback, non-zero exit status). -/
inductive Err where
  | exitMsg (msg : String)
  | pyError (kind : String)
deriving DecidableEq

/-- Result of a pipeline stage: a value with the updated world, or an
abnormal termination together with the world at that moment. -/
inductive Res (α : Type) where
  | ok (a : α) (w : World)
  | failed (e : Err) (w : World)
deriving DecidableEq

/-- The world carried by a stage result. -/
def resWorld {α : Type} : Res α → World
  | .ok _ w => w
  | .failed _ w => w

/-- True when the result is a normal completion. -/
def resIsOk {α : Type} : Res α → Bool
  | .ok _ _ => true
  | .failed _ _ => false

/-- Response of the network to one `urlopen` call. -/
inductive NetResp where
  | ok (body : EntryData)
  | httpErr
  | urlErr
deriving DecidableEq

/-- The ambient environment of a run: the network, and the behaviour of
the external `dpkg-deb` process (whether it writes its output file, and
its exit status — which the source never reads). -/
structure Env where
  net : String → NetResp
  dpkgWrites : Bool
  dpkgExit : Nat

/-- First-match lookup in a Python dict modelled as an association list. -/
def assocLookup : List (String × String) → String → Option String
  | [], _ => none
  | (k, v) :: rest, key => if k = key then some v else assocLookup rest key

/-- Model item `URLS` dict of the source (lines 15-18). -/
def URLS : List (String × String) :=
  [("x86_64", "https://www.zotero.org/download/client/dl?channel=release&platform=linux-x86_64"),
   ("i686", "https://www.zotero.org/download/client/dl?channel=release&platform=linux-i686")]

/-- Model item `FILENAME` constant (line 19). -/
def FILENAME : String := "zotero.tar.bz2"

/-- Model item `ZOTERO_SUBDIR.format(arch=arch)` (line 20). -/
def zoteroSubdir (arch : String) : String :=
  "Zotero_linux-" ++ arch

/-- Model item `INI_FILE` constant (line 21). -/
def INI_FILE : String := "application.ini"

/-- Model item `DEB_CONTROL.format(version=version, arch=arch)` (lines 24-34). -/
def DEB_CONTROL (version arch : String) : String :=
  "Package: zotero\n" ++
  "Version: " ++ version ++ "\n" ++
  "Architecture: " ++ arch ++ "\n" ++
  "Maintainer: Vadim Velikodniy <vadim@velikodniy.name>\n" ++
  "Section: science\n" ++
  "Priority: optional\n" ++
  "Homepage: https://zotero.org\n" ++
  "Description: Zotero\n" ++
  "  Zotero is a free reference manager\n"

/-- Model item `DESKTOP_FILE` constant (lines 36-47). -/
def DESKTOP_FILE : String :=
  "[Desktop Entry]\n" ++
  "Name=Zotero\n" ++
  "Comment=\x22Open-source reference manager\x22\n" ++
  "Exec=/opt/zotero/zotero\n" ++
  "Icon=\x27zotero.ico\x27\n" ++
  "Icon=accessories-dictionary\n" ++
  "Type=Application\n" ++
  "Categories=Office;\n" ++
  "StartupNotify=true\n" ++
  "Terminal=false\n"

/-- Model item `ARCH_TRANSLATE` dict (lines 49-52). -/
def ARCH_TRANSLATE : List (String × String) :=
  [("x86_64", "amd64"), ("i686", "i386")]

/-- Model item `DEB_FILE.format(version=version, arch=arch)` (line 54). -/
def DEB_FILE (version arch : String) : String :=
  "zotero_" ++ version ++ "_" ++ arch ++ ".deb"

/-- The scratch directory produced by `mkdtemp` with the getzotero name
marker, resolved to an absolute path (line 123). -/
def tmpPath : FPath := ["tmp", "getzotero_x1"]

/-- The current working directory, where `dpkg-deb` writes its output. -/
def cwdPath : FPath := ["home", "user"]

/-- Model item `get_archive(tmp_dir, arch)` (lines 57-70).  When `arch` is not a key
of `URLS`, line 59 evaluates a join that passes `str` and `URLS.keys()`
as two arguments to `str.join`, which raises `TypeError`, so the
`sys.exit` call on line 60 — whose format string would have listed the
valid keys — is never reached.  When the download raises `HTTPError` the
run exits via `sys.exit` with the message Cannot download: plus the
attempted URL; any other `urllib` transport error
(`URLError`) is not caught and propagates as an uncaught exception. -/
def get_archive (env : Env) (tmp : FPath) (arch : String) (w : World) : Res Unit :=
  match assocLookup URLS arch with
  | none => .failed (.pyError "TypeError") w
  | some url =>
    match env.net url with
    | .ok body =>
      .ok () { fs := fsSet w.fs (tmp ++ [FILENAME]) body,
               output := w.output ++ ["Downloading...", "done"],
               events := w.events ++ [.evNet url, .evWrite (tmp ++ [FILENAME]) body] }
    | .httpErr =>
      .failed (.exitMsg ("Cannot download: " ++ url))
        { w with output := w.output ++ ["Downloading..."],
                 events := w.events ++ [.evNet url] }
    | .urlErr =>
      .failed (.pyError "URLError")
        { w with output := w.output ++ ["Downloading..."],
                 events := w.events ++ [.evNet url] }

/-- Model item `extract_archive(tmp_dir)` (lines 73-79): open the downloaded archive,
extract every member into the scratch directory, then unlink the archive.
A missing or malformed archive raises an uncaught exception. -/
def extract_archive (tmp : FPath) (w : World) : Res Unit :=
  match fsLookup w.fs (tmp ++ [FILENAME]) with
  | some (.tarE entries) =>
    .ok () { fs := fsDelete (extractAll w.fs tmp entries) (tmp ++ [FILENAME]),
             output := w.output ++ ["Extracting...", "done"],
             events := w.events ++
               [.evRead (tmp ++ [FILENAME]), .evExtract tmp, .evUnlink (tmp ++ [FILENAME])] }
  | some _ =>
    .failed (.pyError "ReadError")
      { w with output := w.output ++ ["Extracting..."],
               events := w.events ++ [.evRead (tmp ++ [FILENAME])] }
  | none =>
    .failed (.pyError "FileNotFoundError")
      { w with output := w.output ++ ["Extracting..."] }

/-- Model item `get_version(zotero_dir)` (lines 82-89): open `application.ini` inside
the extracted directory, parse it, and read section `App`, key `Version`.
A missing file raises `FileNotFoundError`; a missing section or key raises
a `configparser` error; both are uncaught. -/
def get_version (zdir : FPath) (w : World) : Res String :=
  match fsLookup w.fs (zdir ++ [INI_FILE]) with
  | some (.textE s) =>
    match iniGet (parseIni s) "App" "Version" with
    | .ok v =>
      .ok v { w with output := w.output ++ ["Version: " ++ v],
                     events := w.events ++ [.evRead (zdir ++ [INI_FILE])] }
    | .error k =>
      .failed (.pyError k)
        { w with events := w.events ++ [.evRead (zdir ++ [INI_FILE])] }
  | some _ => .failed (.pyError "IsADirectoryError") w
  | none => .failed (.pyError "FileNotFoundError") w

/-- Model item `prepare_dir(tmp_dir, zotero_dir)` (lines 92-97): create `opt` under
the scratch directory (`mkdir` raises if it already exists), then rename
the extracted directory to `opt/zotero`, carrying its whole subtree. -/
def prepare_dir (tmp zdir : FPath) (w : World) : Res Unit :=
  match fsLookup w.fs (tmp ++ ["opt"]) with
  | some _ =>
    .failed (.pyError "FileExistsError")
      { w with output := w.output ++ ["Preparing dirs..."] }
  | none =>
    match fsLookup (fsSet w.fs (tmp ++ ["opt"]) .dirE) zdir with
    | none =>
      .failed (.pyError "FileNotFoundError")
        { w with fs := fsSet w.fs (tmp ++ ["opt"]) .dirE,
                 output := w.output ++ ["Preparing dirs..."],
                 events := w.events ++ [.evMkdir (tmp ++ ["opt"])] }
    | some _ =>
      .ok () { fs := fsRenameAll (fsSet w.fs (tmp ++ ["opt"]) .dirE) zdir (tmp ++ ["opt", "zotero"]),
               output := w.output ++ ["Preparing dirs...", "done"],
               events := w.events ++
                 [.evMkdir (tmp ++ ["opt"]), .evRename zdir (tmp ++ ["opt", "zotero"])] }

/-- Filesystem effect of the first half of `create_deb_files`: make the
`DEBIAN` directory and write the interpolated control file (lines 101-104). -/
def controlFS (fs : FS) (tmp : FPath) (version arch : String) : FS :=
  fsSet (fsSet fs (tmp ++ ["DEBIAN"]) .dirE)
    (tmp ++ ["DEBIAN", "control"]) (.textE (DEB_CONTROL version arch))

/-- Filesystem effect of the second half of `create_deb_files`: make
`usr/share/applications` (with parents) and write the desktop file
(lines 105-108). -/
def deskFS (fs : FS) (tmp : FPath) : FS :=
  fsSet
    (fsSet (ensureDir (ensureDir fs (tmp ++ ["usr"])) (tmp ++ ["usr", "share"]))
      (tmp ++ ["usr", "share", "applications"]) .dirE)
    (tmp ++ ["usr", "share", "applications", "zotero.desktop"]) (.textE DESKTOP_FILE)

/-- Model item `create_deb_files(tmp_dir, version, arch)` (lines 100-108).  The
`arch` argument is already the translated Debian label: `main` passes
`ARCH_TRANSLATE[arch]` (line 129). -/
def create_deb_files (tmp : FPath) (version arch : String) (w : World) : Res Unit :=
  match fsLookup w.fs (tmp ++ ["DEBIAN"]) with
  | some _ => .failed (.pyError "FileExistsError") w
  | none =>
    match fsLookup (controlFS w.fs tmp version arch) (tmp ++ ["usr", "share", "applications"]) with
    | some _ =>
      .failed (.pyError "FileExistsError")
        { w with fs := controlFS w.fs tmp version arch,
                 events := w.events ++
                   [.evMkdir (tmp ++ ["DEBIAN"]),
                    .evWrite (tmp ++ ["DEBIAN", "control"]) (.textE (DEB_CONTROL version arch))] }
    | none =>
      .ok () { fs := deskFS (controlFS w.fs tmp version arch) tmp,
               output := w.output,
               events := w.events ++
                 [.evMkdir (tmp ++ ["DEBIAN"]),
                  .evWrite (tmp ++ ["DEBIAN", "control"]) (.textE (DEB_CONTROL version arch)),
                  .evMkdir (tmp ++ ["usr", "share", "applications"]),
                  .evWrite (tmp ++ ["usr", "share", "applications", "zotero.desktop"])
                    (.textE DESKTOP_FILE)] }

/-- Model item `build_deb(tmp_dir, version, arch)` (lines 111-119): invoke `dpkg-deb
--build <tmp_dir> <DEB_FILE>` via `subprocess.run`.  The `CompletedProcess`
return value — and with it the exit status of the tool — is discarded, so
this stage always completes; whether the output file appears is decided
by the external tool (`env.dpkgWrites`). -/
def build_deb (env : Env) (cwd tmp : FPath) (version arch : String) (w : World) : Res Unit :=
  .ok () { fs :=
             if env.dpkgWrites then
               fsSet w.fs (cwd ++ [DEB_FILE version arch]) .blobE
             else w.fs,
           output := w.output ++ ["Building deb...", "Building done"],
           events := w.events ++
             [.evRun ["dpkg-deb", "--build", pathStr tmp, DEB_FILE version arch]] }

/-- The world right after `mkdtemp` on line 123: an empty filesystem save
for the fresh scratch directory, and the mkdir already in the trace. -/
def initWorld : World :=
  { fs := [(tmpPath, .dirE)], output := [], events := [.evMkdir tmpPath] }

/-- Model item `main(arch)` (lines 122-131): the five stages in order, then
`rmtree(tmp_dir)`.  `ARCH_TRANSLATE[arch]` (lines 129-130) would raise
`KeyError` for an untranslatable key, though that branch is unreachable
past `get_archive`. -/
def mainRun (env : Env) (arch : String) : Res Unit :=
  match get_archive env tmpPath arch initWorld with
  | .failed e w => .failed e w
  | .ok _ w1 =>
    match extract_archive tmpPath w1 with
    | .failed e w => .failed e w
    | .ok _ w2 =>
      match get_version (tmpPath ++ [zoteroSubdir arch]) w2 with
      | .failed e w => .failed e w
      | .ok version w3 =>
        match prepare_dir tmpPath (tmpPath ++ [zoteroSubdir arch]) w3 with
        | .failed e w => .failed e w
        | .ok _ w4 =>
          match assocLookup ARCH_TRANSLATE arch with
          | none => .failed (.pyError "KeyError") w4
          | some debarch =>
            match create_deb_files tmpPath version debarch w4 with
            | .failed e w => .failed e w
            | .ok _ w5 =>
              match build_deb env cwdPath tmpPath version debarch w5 with
              | .failed e w => .failed e w
              | .ok _ w6 =>
                .ok () { w6 with fs := fsRmtreeAll w6.fs tmpPath,
                                 events := w6.events ++ [.evRmtree tmpPath] }

/-- The version string the Version Reader stage of `main env arch`
returns, when the run gets that far. -/
def versionRead (env : Env) (arch : String) : Option String :=
  match get_archive env tmpPath arch initWorld with
  | .failed _ _ => none
  | .ok _ w1 =>
    match extract_archive tmpPath w1 with
    | .failed _ _ => none
    | .ok _ w2 =>
      match get_version (tmpPath ++ [zoteroSubdir arch]) w2 with
      | .failed _ _ => none
      | .ok v _ => some v

/-- The filesystem after download and extraction of archive `entries`,
starting from the fresh scratch directory. -/
def fsAfterExtract (entries : List TarEntry) : FS :=
  fsDelete (extractAll (fsSet initWorld.fs (tmpPath ++ [FILENAME]) (.tarE entries)) tmpPath entries)
    (tmpPath ++ [FILENAME])

/-- True for a subprocess-invocation event. -/
def isRunEvent : Event → Bool
  | .evRun _ => true
  | _ => false

/-- True for a rename (layout relocation) event. -/
def isRenameEvent : Event → Bool
  | .evRename _ _ => true
  | _ => false

/-- True for a file-write event. -/
def isWriteEvent : Event → Bool
  | .evWrite _ _ => true
  | _ => false

/-- The download URL of the `x86_64` architecture. -/
def urlX86 : String :=
  "https://www.zotero.org/download/client/dl?channel=release&platform=linux-x86_64"

/-- A well-formed `application.ini` declaring `Version = 9.9.9`. -/
def iniGood : String := "[App]\nVersion = 9.9.9\n"

/-- A well-formed input archive for `x86_64`: the application directory
and its `application.ini`. -/
def stdEntries : List TarEntry :=
  [.dirT ["Zotero_linux-x86_64"],
   .fileT ["Zotero_linux-x86_64", "application.ini"] iniGood]

/-- Environment for an end-to-end happy run on `x86_64`. -/
def env99 : Env :=
  { net := fun u => if u = urlX86 then .ok (.tarE stdEntries) else .urlErr,
    dpkgWrites := true, dpkgExit := 0 }

/-- Environment whose dpkg-deb exits with status 2 and writes nothing. -/
def envDpkgFails : Env :=
  { net := fun u => if u = urlX86 then .ok (.tarE stdEntries) else .urlErr,
    dpkgWrites := false, dpkgExit := 2 }

/-- Environment where every download gets an HTTP error response. -/
def envHttpErr : Env :=
  { net := fun _ => .httpErr, dpkgWrites := true, dpkgExit := 0 }

/-- Environment where every download fails below HTTP (e.g. connection
refused): `urlopen` raises a `URLError` that is not an `HTTPError`. -/
def envUrlErr : Env :=
  { net := fun _ => .urlErr, dpkgWrites := true, dpkgExit := 0 }

/-- Environment serving an archive without any `application.ini`. -/
def envNoIni : Env :=
  { net := fun u => if u = urlX86 then .ok (.tarE [.dirT ["Zotero_linux-x86_64"]]) else .urlErr,
    dpkgWrites := true, dpkgExit := 0 }


/-- Concrete extracted application directory used as an exemplar. -/
def zdirEx : FPath := tmpPath ++ ["Zotero_linux-x86_64"]

/-- Concrete world before the Layout Builder stage: the scratch directory,
the extracted application directory, and one file inside it. -/
def wEx : World :=
  { fs := [(tmpPath, .dirE), (zdirEx, .dirE), (zdirEx ++ ["zotero"], .textE "launcher")],
    output := [], events := [] }

/-- Concrete world before the Extractor stage: the scratch directory with
the downloaded archive in it. -/
def wExtract : World :=
  { fs := [(tmpPath, .dirE), (tmpPath ++ [FILENAME], .tarE stdEntries)],
    output := [], events := [] }

/-! Section: Lemmas about the filesystem model -/

theorem fsLookup_fsDelete_ne (fs : FS) (p q : FPath) (h : q ≠ p) :
    fsLookup (fsDelete fs p) q = fsLookup fs q := by
  induction fs with
  | nil => rfl
  | cons hd tl ih =>
    obtain ⟨k, d⟩ := hd
    by_cases hk : k = p
    · have hpq : ¬ p = q := fun hh => h hh.symm
      simp [fsDelete, fsLookup, hk, hpq, ih]
    · simp [fsDelete, fsLookup, hk, ih]

theorem fsLookup_fsDelete_self (fs : FS) (p : FPath) :
    fsLookup (fsDelete fs p) p = none := by
  induction fs with
  | nil => rfl
  | cons hd tl ih =>
    obtain ⟨k, d⟩ := hd
    by_cases hk : k = p
    · simp [fsDelete, hk, ih]
    · simp [fsDelete, fsLookup, hk, ih]

theorem fsLookup_fsSet_self (fs : FS) (p : FPath) (d : EntryData) :
    fsLookup (fsSet fs p d) p = some d := by
  simp [fsSet, fsLookup]

theorem fsLookup_fsSet_ne (fs : FS) (p q : FPath) (d : EntryData) (h : q ≠ p) :
    fsLookup (fsSet fs p d) q = fsLookup fs q := by
  have hpq : ¬ p = q := fun hh => h hh.symm
  simp [fsSet, fsLookup, hpq, fsLookup_fsDelete_ne fs p q h]

theorem fsSet_isSome (fs : FS) (p q : FPath) (d : EntryData)
    (h : (fsLookup fs q).isSome = true) :
    (fsLookup (fsSet fs p d) q).isSome = true := by
  by_cases hpq : q = p
  · subst hpq
    rw [fsLookup_fsSet_self]
    rfl
  · rw [fsLookup_fsSet_ne fs p q d hpq]
    exact h

theorem fsDelete_none (fs : FS) (p q : FPath) (h : fsLookup fs q = none) :
    fsLookup (fsDelete fs p) q = none := by
  by_cases hpq : q = p
  · subst hpq
    exact fsLookup_fsDelete_self fs q
  · rw [fsLookup_fsDelete_ne fs p q hpq]
    exact h

theorem fsSet_none (fs : FS) (p q : FPath) (d : EntryData) (hq : q ≠ p)
    (h : fsLookup fs q = none) :
    fsLookup (fsSet fs p d) q = none := by
  rw [fsLookup_fsSet_ne fs p q d hq]
  exact h

theorem ensureDir_isSome (fs : FS) (p q : FPath)
    (h : (fsLookup fs q).isSome = true) :
    (fsLookup (ensureDir fs p) q).isSome = true := by
  unfold ensureDir
  cases fsLookup fs p with
  | none => exact fsSet_isSome fs p q .dirE h
  | some d => exact h

theorem extractAll_lookup_other (fs : FS) (tmp : FPath) (entries : List TarEntry) (q : FPath)
    (h : ∀ e ∈ entries, tmp ++ tarPath e ≠ q) :
    fsLookup (extractAll fs tmp entries) q = fsLookup fs q := by
  induction entries generalizing fs with
  | nil => rfl
  | cons e rest ih =>
    rw [extractAll]
    rw [ih _ (fun x hx => h x (List.mem_cons_of_mem e hx))]
    exact fsLookup_fsSet_ne _ _ _ _ (fun hh => h e (List.mem_cons_self e rest) hh.symm)

theorem extractAll_isSome (fs : FS) (tmp : FPath) (entries : List TarEntry) (q : FPath)
    (h : (fsLookup fs q).isSome = true) :
    (fsLookup (extractAll fs tmp entries) q).isSome = true := by
  induction entries generalizing fs with
  | nil => exact h
  | cons e rest ih => exact ih _ (fsSet_isSome _ _ _ _ h)

theorem extractAll_lookup_mem (fs : FS) (tmp : FPath) (entries : List TarEntry) (e : TarEntry)
    (hmem : e ∈ entries) (hnd : (entries.map tarPath).Nodup) :
    fsLookup (extractAll fs tmp entries) (tmp ++ tarPath e) = some (tarData e) := by
  induction entries generalizing fs with
  | nil => cases hmem
  | cons x rest ih =>
    have hnd2 : tarPath x ∉ rest.map tarPath ∧ (rest.map tarPath).Nodup := by
      rw [← List.nodup_cons]
      simpa using hnd
    rw [extractAll]
    rcases List.mem_cons.mp hmem with he | he
    · subst he
      rw [extractAll_lookup_other]
      · exact fsLookup_fsSet_self _ _ _
      · intro y hy hcontra
        apply hnd2.1
        have hpy : tarPath y = tarPath e := List.append_cancel_left hcontra
        rw [← hpy]
        exact List.mem_map_of_mem tarPath hy
    · exact ih _ he hnd2.2

theorem startsWithPath_app (r t : FPath) : startsWithPath r (r ++ t) = true := by
  induction r with
  | nil => rfl
  | cons a as ih => simp [startsWithPath, ih]

theorem startsWithPath_exists (r q : FPath) (h : startsWithPath r q = true) :
    ∃ t, q = r ++ t := by
  induction r generalizing q with
  | nil => exact ⟨q, rfl⟩
  | cons a as ih =>
    cases q with
    | nil => simp [startsWithPath] at h
    | cons b bs =>
      by_cases hab : a = b
      · subst hab
        simp [startsWithPath] at h
        obtain ⟨t, ht⟩ := ih bs h
        exact ⟨t, by rw [List.cons_append, ← ht]⟩
      · simp [startsWithPath, hab] at h

theorem append_cons_ne (a : FPath) (x : String) (xs : FPath) : a ++ x :: xs ≠ a := by
  intro h
  have := congrArg List.length h
  simp at this

theorem startsWithPath_app_ne (a : FPath) (x : String) (xs : FPath) :
    startsWithPath (a ++ x :: xs) a = false := by
  induction a with
  | nil => rfl
  | cons b bs ih => simp [startsWithPath, ih]

theorem fsRmtree_under (fs : FS) (p q : FPath) (h : startsWithPath p q = true) :
    fsLookup (fsRmtreeAll fs p) q = none := by
  induction fs with
  | nil => rfl
  | cons hd tl ih =>
    obtain ⟨k, d⟩ := hd
    by_cases hk : startsWithPath p k = true
    · simp [fsRmtreeAll, hk, ih]
    · have hkq : ¬ k = q := by
        intro hkq
        subst hkq
        exact hk h
      simp [fsRmtreeAll, hk, fsLookup, hkq, ih]

theorem fsRmtree_other (fs : FS) (p q : FPath) (h : startsWithPath p q = false) :
    fsLookup (fsRmtreeAll fs p) q = fsLookup fs q := by
  induction fs with
  | nil => rfl
  | cons hd tl ih =>
    obtain ⟨k, d⟩ := hd
    by_cases hk : startsWithPath p k = true
    · have hkq : ¬ k = q := by
        intro hkq
        subst hkq
        rw [hk] at h
        cases h
      simp [fsRmtreeAll, hk, fsLookup, hkq, ih]
    · simp [fsRmtreeAll, hk, fsLookup, ih]

theorem remapKey_app (src dst t : FPath) : remapKey src dst (src ++ t) = dst ++ t := by
  simp [remapKey, startsWithPath_app, List.drop_left]

theorem remapKey_not (src dst q : FPath) (h : startsWithPath src q = false) :
    remapKey src dst q = q := by
  simp [remapKey, h]

theorem lookup_rename_dst (fs : FS) (src dst p : FPath)
    (hdst : ∀ t, fsLookup fs (dst ++ t) = none) :
    fsLookup (fsRenameAll fs src dst) (dst ++ p) = fsLookup fs (src ++ p) := by
  induction fs with
  | nil => rfl
  | cons hd tl ih =>
    obtain ⟨k, d⟩ := hd
    have hdst2 : ∀ t, fsLookup tl (dst ++ t) = none := by
      intro t
      have h0 := hdst t
      rw [fsLookup] at h0
      by_cases hk : k = dst ++ t
      · rw [if_pos hk] at h0
        cases h0
      · rw [if_neg hk] at h0
        exact h0
    have hk_ne : ∀ t, ¬ k = dst ++ t := by
      intro t hk
      have h0 := hdst t
      rw [fsLookup, if_pos hk] at h0
      cases h0
    by_cases hsw : startsWithPath src k = true
    · obtain ⟨t0, ht0⟩ := startsWithPath_exists _ _ hsw
      subst ht0
      rw [fsRenameAll, remapKey_app]
      by_cases hpt : t0 = p
      · subst hpt
        simp [fsLookup]
      · have h1 : ¬ (dst ++ t0 = dst ++ p) := fun hh => hpt (List.append_cancel_left hh)
        have h2 : ¬ (src ++ t0 = src ++ p) := fun hh => hpt (List.append_cancel_left hh)
        simp [fsLookup, h1, h2, ih hdst2]
    · have hswf : startsWithPath src k = false := by
        revert hsw
        cases startsWithPath src k <;> simp
      have hkdp : ¬ k = dst ++ p := hk_ne p
      have hksp : ¬ k = src ++ p := by
        intro hh
        subst hh
        rw [startsWithPath_app] at hswf
        cases hswf
      rw [fsRenameAll, remapKey_not _ _ _ hswf]
      simp [fsLookup, hkdp, hksp, ih hdst2]

theorem rename_isSome_untouched (fs : FS) (src dst q : FPath)
    (hq : startsWithPath src q = false) (h : (fsLookup fs q).isSome = true) :
    (fsLookup (fsRenameAll fs src dst) q).isSome = true := by
  induction fs with
  | nil => simp [fsLookup] at h
  | cons hd tl ih =>
    obtain ⟨k, d⟩ := hd
    rw [fsRenameAll]
    by_cases hk : remapKey src dst k = q
    · simp [fsLookup, hk]
    · rw [fsLookup, if_neg hk]
      apply ih
      rw [fsLookup] at h
      by_cases hkq : k = q
      · exfalso
        apply hk
        rw [hkq, remapKey_not _ _ _ hq]
      · rw [if_neg hkq] at h
        exact h

/-! Section: Lemmas about substring occurrence -/

theorem startsList_self_app (l q : List Char) : startsList l (l ++ q) = true := by
  induction l with
  | nil => rfl
  | cons a as ih => simp [startsList, ih]

theorem occursIn_nil_needle (q : List Char) : occursIn [] q = true := by
  cases q <;> simp [occursIn, startsList]

theorem occursIn_here (n q : List Char) : occursIn n (n ++ q) = true := by
  cases n with
  | nil => exact occursIn_nil_needle q
  | cons a as => simp [occursIn, startsList, startsList_self_app]

theorem occursIn_self (n : List Char) : occursIn n n = true := by
  have h := occursIn_here n []
  simpa using h

theorem occursIn_app_left (n p q : List Char) (h : occursIn n q = true) :
    occursIn n (p ++ q) = true := by
  induction p with
  | nil => exact h
  | cons c cs ih =>
    simp only [List.cons_append, occursIn, Bool.or_eq_true]
    exact Or.inr ih

theorem startsList_app_right (n l q : List Char) (h : startsList n l = true) :
    startsList n (l ++ q) = true := by
  induction n generalizing l with
  | nil => rfl
  | cons a as ih =>
    cases l with
    | nil => simp [startsList] at h
    | cons b bs =>
      by_cases hab : a = b
      · subst hab
        simp only [startsList, if_pos rfl] at h
        simp only [List.cons_append, startsList, if_pos rfl]
        exact ih bs h
      · simp [startsList, hab] at h

theorem occursIn_app_right (n p q : List Char) (h : occursIn n p = true) :
    occursIn n (p ++ q) = true := by
  induction p with
  | nil =>
    cases n with
    | nil => exact occursIn_nil_needle q
    | cons a as => simp [occursIn, startsList] at h
  | cons c cs ih =>
    simp only [occursIn, Bool.or_eq_true] at h
    simp only [List.cons_append, occursIn, Bool.or_eq_true]
    rcases h with h | h
    · exact Or.inl (by simpa using startsList_app_right n (c :: cs) q h)
    · exact Or.inr (ih h)

theorem strData_append (a b : String) : (a ++ b).data = a.data ++ b.data := rfl

/-! Section: Inversion lemmas for the pipeline stages -/

theorem get_archive_ok_inv (env : Env) (tmp : FPath) (arch : String) (w wr : World) (u : Unit)
    (h : get_archive env tmp arch w = .ok u wr) :
    ∃ url body, assocLookup URLS arch = some url ∧ env.net url = .ok body ∧
      wr = { fs := fsSet w.fs (tmp ++ [FILENAME]) body,
             output := w.output ++ ["Downloading...", "done"],
             events := w.events ++ [.evNet url, .evWrite (tmp ++ [FILENAME]) body] } := by
  unfold get_archive at h
  split at h
  next => cases h
  next url heq =>
    split at h
    next body hn => cases h; exact ⟨url, body, heq, hn, rfl⟩
    next hn => cases h
    next hn => cases h

theorem extract_ok_inv (tmp : FPath) (w wr : World) (u : Unit)
    (h : extract_archive tmp w = .ok u wr) :
    ∃ entries, fsLookup w.fs (tmp ++ [FILENAME]) = some (.tarE entries) ∧
      wr = { fs := fsDelete (extractAll w.fs tmp entries) (tmp ++ [FILENAME]),
             output := w.output ++ ["Extracting...", "done"],
             events := w.events ++
               [.evRead (tmp ++ [FILENAME]), .evExtract tmp, .evUnlink (tmp ++ [FILENAME])] } := by
  unfold extract_archive at h
  split at h
  next entries heq => cases h; exact ⟨entries, heq, rfl⟩
  next d heq hne => cases h
  next heq => cases h

theorem get_version_ok_inv (zdir : FPath) (w wr : World) (v : String)
    (h : get_version zdir w = .ok v wr) :
    ∃ s, fsLookup w.fs (zdir ++ [INI_FILE]) = some (.textE s) ∧
      iniGet (parseIni s) "App" "Version" = .ok v ∧
      wr = { w with output := w.output ++ ["Version: " ++ v],
                    events := w.events ++ [.evRead (zdir ++ [INI_FILE])] } := by
  unfold get_version at h
  split at h
  next s heq =>
    split at h
    next v0 hg => cases h; exact ⟨s, heq, hg, rfl⟩
    next k hg => cases h
  next d heq hne => cases h
  next heq => cases h

theorem prepare_ok_inv (tmp zdir : FPath) (w wr : World) (u : Unit)
    (h : prepare_dir tmp zdir w = .ok u wr) :
    fsLookup w.fs (tmp ++ ["opt"]) = none ∧
    (fsLookup (fsSet w.fs (tmp ++ ["opt"]) .dirE) zdir).isSome = true ∧
    wr = { fs := fsRenameAll (fsSet w.fs (tmp ++ ["opt"]) .dirE) zdir (tmp ++ ["opt", "zotero"]),
           output := w.output ++ ["Preparing dirs...", "done"],
           events := w.events ++
             [.evMkdir (tmp ++ ["opt"]), .evRename zdir (tmp ++ ["opt", "zotero"])] } := by
  unfold prepare_dir at h
  split at h
  next d heq => cases h
  next heq =>
    split at h
    next heq2 => cases h
    next d2 heq2 => cases h; exact ⟨heq, by rw [heq2]; rfl, rfl⟩

theorem create_ok_inv (tmp : FPath) (version arch : String) (w wr : World) (u : Unit)
    (h : create_deb_files tmp version arch w = .ok u wr) :
    fsLookup w.fs (tmp ++ ["DEBIAN"]) = none ∧
    wr = { fs := deskFS (controlFS w.fs tmp version arch) tmp,
           output := w.output,
           events := w.events ++
             [.evMkdir (tmp ++ ["DEBIAN"]),
              .evWrite (tmp ++ ["DEBIAN", "control"]) (.textE (DEB_CONTROL version arch)),
              .evMkdir (tmp ++ ["usr", "share", "applications"]),
              .evWrite (tmp ++ ["usr", "share", "applications", "zotero.desktop"])
                (.textE DESKTOP_FILE)] } := by
  unfold create_deb_files at h
  split at h
  next d heq => cases h
  next heq =>
    split at h
    next d2 heq2 => cases h
    next heq2 => cases h; exact ⟨heq, rfl⟩

/-! Section: The scratch directory survives every stage, succeed or fail -/

theorem get_archive_pres (env : Env) (arch : String) (w : World)
    (h : (fsLookup w.fs tmpPath).isSome = true) :
    (fsLookup (resWorld (get_archive env tmpPath arch w)).fs tmpPath).isSome = true := by
  unfold get_archive
  split
  next => exact h
  next url heq =>
    split
    next body hn => exact fsSet_isSome _ _ _ _ h
    next hn => exact h
    next hn => exact h

theorem extract_pres (w : World)
    (h : (fsLookup w.fs tmpPath).isSome = true) :
    (fsLookup (resWorld (extract_archive tmpPath w)).fs tmpPath).isSome = true := by
  unfold extract_archive
  split
  next entries heq =>
    show (fsLookup (fsDelete (extractAll w.fs tmpPath entries) (tmpPath ++ [FILENAME])) tmpPath).isSome = true
    rw [fsLookup_fsDelete_ne _ _ _ (fun hh => append_cons_ne tmpPath FILENAME [] hh.symm)]
    exact extractAll_isSome _ _ _ _ h
  next d heq hne => exact h
  next heq => exact h

theorem get_version_pres (zdir : FPath) (w : World)
    (h : (fsLookup w.fs tmpPath).isSome = true) :
    (fsLookup (resWorld (get_version zdir w)).fs tmpPath).isSome = true := by
  unfold get_version
  split
  next s heq =>
    split
    next v0 hg => exact h
    next k hg => exact h
  next d heq hne => exact h
  next heq => exact h

theorem prepare_pres (sub : String) (w : World)
    (h : (fsLookup w.fs tmpPath).isSome = true) :
    (fsLookup (resWorld (prepare_dir tmpPath (tmpPath ++ [sub]) w)).fs tmpPath).isSome = true := by
  unfold prepare_dir
  split
  next d heq => exact h
  next heq =>
    split
    next heq2 => exact fsSet_isSome _ _ _ _ h
    next d2 heq2 =>
      show (fsLookup (fsRenameAll (fsSet w.fs (tmpPath ++ ["opt"]) .dirE)
        (tmpPath ++ [sub]) (tmpPath ++ ["opt", "zotero"])) tmpPath).isSome = true
      exact rename_isSome_untouched _ _ _ _ (startsWithPath_app_ne tmpPath sub [])
        (fsSet_isSome _ _ _ _ h)

theorem create_pres (version arch : String) (w : World)
    (h : (fsLookup w.fs tmpPath).isSome = true) :
    (fsLookup (resWorld (create_deb_files tmpPath version arch w)).fs tmpPath).isSome = true := by
  unfold create_deb_files
  split
  next d heq => exact h
  next heq =>
    split
    next d2 heq2 =>
      show (fsLookup (controlFS w.fs tmpPath version arch) tmpPath).isSome = true
      unfold controlFS
      exact fsSet_isSome _ _ _ _ (fsSet_isSome _ _ _ _ h)
    next heq2 =>
      show (fsLookup (deskFS (controlFS w.fs tmpPath version arch) tmpPath) tmpPath).isSome = true
      unfold deskFS controlFS
      exact fsSet_isSome _ _ _ _ (fsSet_isSome _ _ _ _ (ensureDir_isSome _ _ _
        (ensureDir_isSome _ _ _ (fsSet_isSome _ _ _ _ (fsSet_isSome _ _ _ _ h)))))

theorem build_pres (env : Env) (version arch : String) (w : World)
    (h : (fsLookup w.fs tmpPath).isSome = true) :
    (fsLookup (resWorld (build_deb env cwdPath tmpPath version arch w)).fs tmpPath).isSome = true := by
  unfold build_deb
  show (fsLookup (if env.dpkgWrites then
      fsSet w.fs (cwdPath ++ [DEB_FILE version arch]) .blobE else w.fs) tmpPath).isSome = true
  by_cases hb : env.dpkgWrites = true
  · rw [if_pos hb]
    exact fsSet_isSome _ _ _ _ h
  · rw [if_neg hb]
    exact h

/-- Any abnormal termination of the pipeline leaves the scratch directory
on disk. -/
theorem mainRun_failed_tmp (env : Env) (arch : String) (e : Err) (w : World)
    (h : mainRun env arch = .failed e w) :
    (fsLookup w.fs tmpPath).isSome = true := by
  have h0 : (fsLookup initWorld.fs tmpPath).isSome = true := rfl
  unfold mainRun at h
  split at h
  next e1 w1 hga =>
    cases h
    have hp := get_archive_pres env arch initWorld h0
    rw [hga] at hp
    exact hp
  next u1 w1 hga =>
    have hp1 : (fsLookup w1.fs tmpPath).isSome = true := by
      have hp := get_archive_pres env arch initWorld h0
      rw [hga] at hp
      exact hp
    split at h
    next e2 w2 hex =>
      cases h
      have hp := extract_pres w1 hp1
      rw [hex] at hp
      exact hp
    next u2 w2 hex =>
      have hp2 : (fsLookup w2.fs tmpPath).isSome = true := by
        have hp := extract_pres w1 hp1
        rw [hex] at hp
        exact hp
      split at h
      next e3 w3 hgv =>
        cases h
        have hp := get_version_pres (tmpPath ++ [zoteroSubdir arch]) w2 hp2
        rw [hgv] at hp
        exact hp
      next version w3 hgv =>
        have hp3 : (fsLookup w3.fs tmpPath).isSome = true := by
          have hp := get_version_pres (tmpPath ++ [zoteroSubdir arch]) w2 hp2
          rw [hgv] at hp
          exact hp
        split at h
        next e4 w4 hpd =>
          cases h
          have hp := prepare_pres (zoteroSubdir arch) w3 hp3
          rw [hpd] at hp
          exact hp
        next u4 w4 hpd =>
          have hp4 : (fsLookup w4.fs tmpPath).isSome = true := by
            have hp := prepare_pres (zoteroSubdir arch) w3 hp3
            rw [hpd] at hp
            exact hp
          split at h
          next hat =>
            cases h
            exact hp4
          next debarch hat =>
            split at h
            next e5 w5 hcd =>
              cases h
              have hp := create_pres version debarch w4 hp4
              rw [hcd] at hp
              exact hp
            next u5 w5 hcd =>
              split at h
              next e6 w6 hbd => cases hbd
              next u6 w6 hbd => cases h

/-- Complete description of a successful run: the stages that were passed,
the value read by the Version Reader, the translated architecture label,
the full I/O trace, the output file, and the removed scratch tree. -/
theorem mainRun_ok_inv (env : Env) (arch : String) (w : World)
    (h : mainRun env arch = .ok () w) :
    ∃ url body v d,
      assocLookup URLS arch = some url ∧
      env.net url = .ok body ∧
      versionRead env arch = some v ∧
      assocLookup ARCH_TRANSLATE arch = some d ∧
      w.events =
        [.evMkdir tmpPath, .evNet url, .evWrite (tmpPath ++ [FILENAME]) body,
         .evRead (tmpPath ++ [FILENAME]), .evExtract tmpPath, .evUnlink (tmpPath ++ [FILENAME]),
         .evRead (tmpPath ++ [zoteroSubdir arch, INI_FILE]),
         .evMkdir (tmpPath ++ ["opt"]),
         .evRename (tmpPath ++ [zoteroSubdir arch]) (tmpPath ++ ["opt", "zotero"]),
         .evMkdir (tmpPath ++ ["DEBIAN"]),
         .evWrite (tmpPath ++ ["DEBIAN", "control"]) (.textE (DEB_CONTROL v d)),
         .evMkdir (tmpPath ++ ["usr", "share", "applications"]),
         .evWrite (tmpPath ++ ["usr", "share", "applications", "zotero.desktop"])
           (.textE DESKTOP_FILE),
         .evRun ["dpkg-deb", "--build", pathStr tmpPath, DEB_FILE v d],
         .evRmtree tmpPath] ∧
      (env.dpkgWrites = true → fsLookup w.fs (cwdPath ++ [DEB_FILE v d]) = some .blobE) ∧
      (∀ q, startsWithPath tmpPath q = true → fsLookup w.fs q = none) := by
  unfold mainRun at h
  split at h
  next e1 w1 hga => cases h
  next u1 w1 hga =>
    obtain ⟨url, body, hu, hn, hw1⟩ := get_archive_ok_inv env tmpPath arch initWorld w1 u1 hga
    split at h
    next e2 w2 hex => cases h
    next u2 w2 hex =>
      obtain ⟨entries, harc, hw2⟩ := extract_ok_inv tmpPath w1 w2 u2 hex
      split at h
      next e3 w3 hgv => cases h
      next version w3 hgv =>
        obtain ⟨s, hini, hver, hw3⟩ :=
          get_version_ok_inv (tmpPath ++ [zoteroSubdir arch]) w2 w3 version hgv
        split at h
        next e4 w4 hpd => cases h
        next u4 w4 hpd =>
          obtain ⟨hopt, hzd, hw4⟩ :=
            prepare_ok_inv tmpPath (tmpPath ++ [zoteroSubdir arch]) w3 w4 u4 hpd
          split at h
          next hat => cases h
          next debarch hat =>
            split at h
            next e5 w5 hcd => cases h
            next u5 w5 hcd =>
              obtain ⟨hdeb, hw5⟩ := create_ok_inv tmpPath version debarch w4 w5 u5 hcd
              split at h
              next e6 w6 hbd => cases hbd
              next u6 w6 hbd =>
                unfold build_deb at hbd
                cases hbd
                cases h
                have hvr : versionRead env arch = some version := by
                  simp only [versionRead, hga, hex, hgv]
                refine ⟨url, body, version, debarch, hu, hn, hvr, hat, ?_, ?_, ?_⟩
                · subst hw1 hw2 hw3 hw4 hw5
                  simp [initWorld, List.append_assoc]
                · intro hdw
                  subst hw5
                  simp only [hdw, if_pos]
                  rw [fsRmtree_other _ _ _ (by rfl)]
                  exact fsLookup_fsSet_self _ _ _
                · intro q hq
                  exact fsRmtree_under _ _ _ hq

theorem get_version_failed_inv (zdir : FPath) (w wr : World) (e : Err)
    (h : get_version zdir w = .failed e wr) :
    (∃ k, e = .pyError k) ∧ wr.fs = w.fs ∧ wr.output = w.output ∧
      (wr.events = w.events ∨ wr.events = w.events ++ [.evRead (zdir ++ [INI_FILE])]) := by
  unfold get_version at h
  split at h
  next s heq =>
    split at h
    next v0 hg => cases h
    next k hg =>
      cases h
      exact ⟨⟨_, rfl⟩, rfl, rfl, Or.inr rfl⟩
  next d heq hne =>
    cases h
    exact ⟨⟨_, rfl⟩, rfl, rfl, Or.inl rfl⟩
  next heq =>
    cases h
    exact ⟨⟨_, rfl⟩, rfl, rfl, Or.inl rfl⟩

/-! Section: Claim theorems -/

/-- Claim C1: for an architecture key outside the supported set, the run
does not exit with a message naming the valid keys.  Line 59 calls
a join passing `str` and `URLS.keys()` as two arguments to `str.join`,
which raises `TypeError` before the
`sys.exit` on line 60 can run, so the run dies with an uncaught exception,
having printed nothing; and the scratch directory has already been created
by `mkdtemp` on line 123, so filesystem I/O has already happened (one
mkdir event in the trace). -/
theorem c1_unsupported_arch_typeerror (env : Env) :
    mainRun env "armhf" = .failed (.pyError "TypeError") initWorld ∧
    initWorld.output = [] ∧
    initWorld.events = [.evMkdir tmpPath] :=
  ⟨rfl, rfl, rfl⟩

/-- Claim C2 (amended): a non-success HTTP status during the download is
reported with the attempted URL via `sys.exit` and terminates the run
non-zero with exactly one network request (no retry); any other transport
failure (`URLError`) also terminates the run non-zero with no retry, but
as an uncaught exception whose user-visible output does not name the URL. -/
theorem c2_download_failure_reporting (env : Env) (arch url : String)
    (hu : assocLookup URLS arch = some url) :
    (env.net url = .httpErr →
      mainRun env arch = .failed (.exitMsg ("Cannot download: " ++ url))
        { fs := initWorld.fs, output := ["Downloading..."],
          events := [.evMkdir tmpPath, .evNet url] } ∧
      substrOccurs url ("Cannot download: " ++ url) = true) ∧
    (env.net url = .urlErr →
      mainRun env arch = .failed (.pyError "URLError")
        { fs := initWorld.fs, output := ["Downloading..."],
          events := [.evMkdir tmpPath, .evNet url] }) := by
  constructor
  · intro hn
    constructor
    · simp [mainRun, get_archive, hu, hn, initWorld]
    · show occursIn url.data ("Cannot download: " ++ url).data = true
      rw [strData_append]
      exact occursIn_app_left _ _ _ (occursIn_self _)
  · intro hn
    simp [mainRun, get_archive, hu, hn, initWorld]

/-- Claim C2, counterexample to the claim as stated: on a transport-level
failure that is not an HTTP error response (connection failure), the run
terminates with an uncaught `URLError`; its printed output is just
`Downloading...`, which does not contain the attempted URL, so the failure
is not reported to the user with the attempted URL. -/
theorem c2_transport_counterexample :
    mainRun envUrlErr "x86_64" = .failed (.pyError "URLError")
      { fs := [(tmpPath, .dirE)], output := ["Downloading..."],
        events := [.evMkdir tmpPath, .evNet urlX86] } ∧
    (resWorld (mainRun envUrlErr "x86_64")).output.any
      (fun line => substrOccurs urlX86 line) = false :=
  ⟨rfl, rfl⟩

/-- Claim C2, witness: concrete HTTP-error run on `x86_64`. -/
theorem c2_download_failure_reporting_witness :
    mainRun envHttpErr "x86_64" = .failed (.exitMsg ("Cannot download: " ++ urlX86))
      { fs := initWorld.fs, output := ["Downloading..."],
        events := [.evMkdir tmpPath, .evNet urlX86] } ∧
    substrOccurs urlX86 ("Cannot download: " ++ urlX86) = true :=
  (c2_download_failure_reporting envHttpErr "x86_64" urlX86 rfl).1 rfl

/-- Claim C3: every successful run passes `dpkg-deb` the output name
`DEB_FILE v d` = `zotero_<version>_<debarch>.deb`, where `v` is exactly
the string the Version Reader returned and `d` the translated label; when
the external tool writes its file it appears in the working directory
under that name; and with `Version = 9.9.9` the name contains `9.9.9`. -/
theorem c3_output_filename (env : Env) (arch : String) (w : World)
    (h : mainRun env arch = .ok () w) :
    ∃ v d, versionRead env arch = some v ∧
      assocLookup ARCH_TRANSLATE arch = some d ∧
      (Event.evRun ["dpkg-deb", "--build", pathStr tmpPath, DEB_FILE v d]) ∈ w.events ∧
      (env.dpkgWrites = true → fsLookup w.fs (cwdPath ++ [DEB_FILE v d]) = some .blobE) ∧
      (v = "9.9.9" → substrOccurs "9.9.9" (DEB_FILE v d) = true) := by
  obtain ⟨url, body, v, d, hu, hn, hv, hd, hev, hfs, htmp⟩ := mainRun_ok_inv env arch w h
  refine ⟨v, d, hv, hd, ?_, hfs, ?_⟩
  · rw [hev]
    simp
  · intro h9
    subst h9
    unfold substrOccurs DEB_FILE
    simp only [strData_append, List.append_assoc]
    apply occursIn_app_left
    exact occursIn_here _ _

/-- Claim C3, witness: the happy `x86_64` run with `Version = 9.9.9`. -/
theorem c3_output_filename_witness :
    ∃ v d, versionRead env99 "x86_64" = some v ∧
      assocLookup ARCH_TRANSLATE "x86_64" = some d ∧
      (Event.evRun ["dpkg-deb", "--build", pathStr tmpPath, DEB_FILE v d]) ∈
        (resWorld (mainRun env99 "x86_64")).events ∧
      (env99.dpkgWrites = true →
        fsLookup (resWorld (mainRun env99 "x86_64")).fs (cwdPath ++ [DEB_FILE v d]) =
          some .blobE) ∧
      (v = "9.9.9" → substrOccurs "9.9.9" (DEB_FILE v d) = true) :=
  c3_output_filename env99 "x86_64" (resWorld (mainRun env99 "x86_64")) rfl

/-- Claim C4: in every successful run the control file is written with
content `DEB_CONTROL v d` where `d` is the result of the single
`ARCH_TRANSLATE[arch]` lookup (`amd64` for `x86_64`, `i386` for `i686`),
so the `Architecture:` field holds the package label, which occurs
literally in the file; the raw CPU key does not occur in the control text
of a representative run. -/
theorem c4_control_file_arch_label (env : Env) (arch : String) (w : World)
    (h : mainRun env arch = .ok () w) :
    ∃ v d, versionRead env arch = some v ∧
      assocLookup ARCH_TRANSLATE arch = some d ∧
      (Event.evWrite (tmpPath ++ ["DEBIAN", "control"]) (.textE (DEB_CONTROL v d))) ∈ w.events ∧
      (arch = "x86_64" → d = "amd64") ∧
      (arch = "i686" → d = "i386") ∧
      substrOccurs ("Architecture: " ++ d) (DEB_CONTROL v d) = true ∧
      substrOccurs "x86_64" (DEB_CONTROL "6.0.37" "amd64") = false := by
  obtain ⟨url, body, v, d, hu, hn, hv, hd, hev, hfs, htmp⟩ := mainRun_ok_inv env arch w h
  refine ⟨v, d, hv, hd, ?_, ?_, ?_, ?_, by decide⟩
  · rw [hev]
    simp
  · intro ha
    subst ha
    have hd2 := hd
    simp [ARCH_TRANSLATE, assocLookup] at hd2
    exact hd2.symm
  · intro ha
    subst ha
    have hd2 := hd
    simp [ARCH_TRANSLATE, assocLookup] at hd2
    exact hd2.symm
  · unfold substrOccurs DEB_CONTROL
    simp only [strData_append, List.append_assoc]
    apply occursIn_app_left
    apply occursIn_app_left
    apply occursIn_app_left
    apply occursIn_app_left
    rw [← List.append_assoc]
    exact occursIn_here _ _

/-- Claim C4, witness: the happy `x86_64` run. -/
theorem c4_control_file_arch_label_witness :
    ∃ v d, versionRead env99 "x86_64" = some v ∧
      assocLookup ARCH_TRANSLATE "x86_64" = some d ∧
      (Event.evWrite (tmpPath ++ ["DEBIAN", "control"]) (.textE (DEB_CONTROL v d))) ∈
        (resWorld (mainRun env99 "x86_64")).events ∧
      ("x86_64" = "x86_64" → d = "amd64") ∧
      ("x86_64" = "i686" → d = "i386") ∧
      substrOccurs ("Architecture: " ++ d) (DEB_CONTROL v d) = true ∧
      substrOccurs "x86_64" (DEB_CONTROL "6.0.37" "amd64") = false :=
  c4_control_file_arch_label env99 "x86_64" (resWorld (mainRun env99 "x86_64")) rfl

/-- Claim C5: when download and extraction succeed but the extracted tree
gives the Version Reader nothing to return — no `application.ini` text
file at the expected place, or `ConfigParser` cannot produce a value for
section `App`, key `Version` (a parse error, a missing section, a key
missing from both the section and its `DEFAULT` fallback, or an
interpolation error) — the run dies with an uncaught error during the
Version Reader stage: no subprocess is ever run, no relocation happens,
the only file ever written is the downloaded archive, and nothing appears
in the working directory. -/
theorem c5_missing_ini_aborts (env : Env) (arch url : String) (entries : List TarEntry)
    (hu : assocLookup URLS arch = some url)
    (hn : env.net url = .ok (.tarE entries))
    (hv : ∀ s v, fsLookup (fsAfterExtract entries) (tmpPath ++ [zoteroSubdir arch] ++ [INI_FILE]) =
        some (.textE s) → iniGet (parseIni s) "App" "Version" ≠ .ok v) :
    ∃ k w, mainRun env arch = .failed (.pyError k) w ∧
      (∀ ev ∈ w.events, isRunEvent ev = false ∧ isRenameEvent ev = false) ∧
      (∀ p dd, Event.evWrite p dd ∈ w.events → p = tmpPath ++ [FILENAME]) ∧
      (∀ f, fsLookup w.fs (cwdPath ++ [f]) = none) := by
  have hga : get_archive env tmpPath arch initWorld = .ok ()
      { fs := fsSet initWorld.fs (tmpPath ++ [FILENAME]) (.tarE entries),
        output := initWorld.output ++ ["Downloading...", "done"],
        events := initWorld.events ++
          [.evNet url, .evWrite (tmpPath ++ [FILENAME]) (.tarE entries)] } := by
    simp only [get_archive, hu, hn]
  have hex : extract_archive tmpPath
      { fs := fsSet initWorld.fs (tmpPath ++ [FILENAME]) (.tarE entries),
        output := initWorld.output ++ ["Downloading...", "done"],
        events := initWorld.events ++
          [.evNet url, .evWrite (tmpPath ++ [FILENAME]) (.tarE entries)] } = .ok ()
      { fs := fsAfterExtract entries,
        output := initWorld.output ++ ["Downloading...", "done"] ++ ["Extracting...", "done"],
        events := initWorld.events ++
          [.evNet url, .evWrite (tmpPath ++ [FILENAME]) (.tarE entries)] ++
          [.evRead (tmpPath ++ [FILENAME]), .evExtract tmpPath,
           .evUnlink (tmpPath ++ [FILENAME])] } := by
    simp only [extract_archive, fsLookup_fsSet_self]
    rfl
  have hcwd : ∀ f, fsLookup (fsAfterExtract entries) (cwdPath ++ [f]) = none := by
    intro f
    unfold fsAfterExtract
    apply fsDelete_none
    rw [extractAll_lookup_other]
    · apply fsSet_none
      · intro hc
        simp [cwdPath, tmpPath] at hc
      · simp [fsLookup, initWorld, tmpPath, cwdPath]
    · intro e he hc
      rw [show tmpPath ++ tarPath e = "tmp" :: ("getzotero_x1" :: tarPath e) from rfl] at hc
      simp [cwdPath] at hc
  cases hgvr : get_version (tmpPath ++ [zoteroSubdir arch])
      { fs := fsAfterExtract entries,
        output := initWorld.output ++ ["Downloading...", "done"] ++ ["Extracting...", "done"],
        events := initWorld.events ++
          [.evNet url, .evWrite (tmpPath ++ [FILENAME]) (.tarE entries)] ++
          [.evRead (tmpPath ++ [FILENAME]), .evExtract tmpPath,
           .evUnlink (tmpPath ++ [FILENAME])] } with
  | ok version w3 =>
    exfalso
    obtain ⟨s, hini, hver, hw3⟩ :=
      get_version_ok_inv (tmpPath ++ [zoteroSubdir arch]) _ w3 version hgvr
    exact hv s version hini hver
  | failed e3 w3 =>
    obtain ⟨⟨k, hk⟩, hfs3, hout3, hev3⟩ :=
      get_version_failed_inv (tmpPath ++ [zoteroSubdir arch]) _ w3 e3 hgvr
    subst hk
    refine ⟨k, w3, ?_, ?_, ?_, ?_⟩
    · simp only [mainRun, hga, hex, hgvr]
    · intro ev hev
      rcases hev3 with hv3 | hv3 <;>
        · rw [hv3] at hev
          cases ev <;> first
            | exact ⟨rfl, rfl⟩
            | simp [initWorld] at hev
    · intro p dd hmem
      rcases hev3 with hv3 | hv3 <;>
        · rw [hv3] at hmem
          simp [initWorld] at hmem
          exact hmem.1
    · intro f
      rw [hfs3]
      exact hcwd f

/-- Claim C5, witness: an archive containing only the application
directory and no `application.ini`. -/
theorem c5_missing_ini_aborts_witness :
    ∃ k w, mainRun envNoIni "x86_64" = .failed (.pyError k) w ∧
      (∀ ev ∈ w.events, isRunEvent ev = false ∧ isRenameEvent ev = false) ∧
      (∀ p dd, Event.evWrite p dd ∈ w.events → p = tmpPath ++ [FILENAME]) ∧
      (∀ f, fsLookup w.fs (cwdPath ++ [f]) = none) :=
  c5_missing_ini_aborts envNoIni "x86_64" urlX86 [.dirT ["Zotero_linux-x86_64"]] rfl rfl
    (fun s v hs => by
      have hnone : fsLookup (fsAfterExtract [.dirT ["Zotero_linux-x86_64"]])
          (tmpPath ++ [zoteroSubdir "x86_64"] ++ [INI_FILE]) = none := rfl
      rw [hnone] at hs
      cases hs)

/-- Claim C6: the scratch directory is recursively deleted exactly when
every stage completes: on success nothing remains at or below it and the
removal is the final event of the trace; on any abnormal termination the
scratch directory is still present on disk. -/
theorem c6_scratch_cleanup_iff (env : Env) (arch : String) :
    (∀ w, mainRun env arch = .ok () w →
      (∀ q, startsWithPath tmpPath q = true → fsLookup w.fs q = none) ∧
      w.events.getLast? = some (.evRmtree tmpPath)) ∧
    (∀ e w, mainRun env arch = .failed e w → (fsLookup w.fs tmpPath).isSome = true) := by
  constructor
  · intro w h
    obtain ⟨url, body, v, d, hu, hn, hv, hd, hev, hfs, htmp⟩ := mainRun_ok_inv env arch w h
    refine ⟨htmp, ?_⟩
    rw [hev]
    rfl
  · intro e w h
    exact mainRun_failed_tmp env arch e w h

/-- Claim C6, witness: the happy run deletes the scratch tree and removal
is last; a failed download leaves the scratch directory present. -/
theorem c6_scratch_cleanup_iff_witness :
    fsLookup (resWorld (mainRun env99 "x86_64")).fs tmpPath = none ∧
    (resWorld (mainRun env99 "x86_64")).events.getLast? = some (.evRmtree tmpPath) ∧
    (fsLookup (resWorld (mainRun envHttpErr "x86_64")).fs tmpPath).isSome = true :=
  ⟨((c6_scratch_cleanup_iff env99 "x86_64").1 (resWorld (mainRun env99 "x86_64")) rfl).1
      tmpPath rfl,
   ((c6_scratch_cleanup_iff env99 "x86_64").1 (resWorld (mainRun env99 "x86_64")) rfl).2,
   (c6_scratch_cleanup_iff envHttpErr "x86_64").2
     (.exitMsg ("Cannot download: " ++ urlX86)) (resWorld (mainRun envHttpErr "x86_64")) rfl⟩

/-- Claim C7: the Layout Builder relocation preserves every file and its
relative path: when `prepare_dir` succeeds and nothing previously existed
under `opt`, an entry at relative path `p` inside the application
directory is found, unchanged, at the same relative path `p` under the
new `opt/zotero` root. -/
theorem c7_relocation_preserves_paths (tmp zdir : FPath) (w wr : World) (p : FPath)
    (e : EntryData)
    (hrun : prepare_dir tmp zdir w = .ok () wr)
    (hopt : ∀ t, fsLookup w.fs (tmp ++ "opt" :: t) = none)
    (hfile : fsLookup w.fs (zdir ++ p) = some e) :
    fsLookup wr.fs (tmp ++ ["opt", "zotero"] ++ p) = some e := by
  obtain ⟨h1, h2, hw⟩ := prepare_ok_inv tmp zdir w wr () hrun
  subst hw
  show fsLookup (fsRenameAll (fsSet w.fs (tmp ++ ["opt"]) .dirE) zdir
    (tmp ++ ["opt", "zotero"])) ((tmp ++ ["opt", "zotero"]) ++ p) = some e
  rw [lookup_rename_dst]
  · rw [fsLookup_fsSet_ne]
    · exact hfile
    · intro hc
      rw [hc] at hfile
      have h0 := hopt []
      rw [show tmp ++ "opt" :: ([] : FPath) = tmp ++ ["opt"] from rfl] at h0
      rw [h0] at hfile
      cases hfile
  · intro t
    have hne : (tmp ++ ["opt", "zotero"]) ++ t ≠ tmp ++ ["opt"] := by
      intro hc
      rw [List.append_assoc] at hc
      have hc2 := List.append_cancel_left hc
      simp at hc2
    rw [fsLookup_fsSet_ne _ _ _ _ hne]
    have hg := hopt ("zotero" :: t)
    rw [show tmp ++ "opt" :: "zotero" :: t = (tmp ++ ["opt", "zotero"]) ++ t from by simp] at hg
    exact hg

/-- Claim C7, witness: one file below the application directory lands at
the same relative path below `opt/zotero`. -/
theorem c7_relocation_preserves_paths_witness :
    fsLookup (resWorld (prepare_dir tmpPath zdirEx wEx)).fs
      (tmpPath ++ ["opt", "zotero"] ++ ["zotero"]) = some (.textE "launcher") :=
  c7_relocation_preserves_paths tmpPath zdirEx wEx (resWorld (prepare_dir tmpPath zdirEx wEx))
    ["zotero"] (.textE "launcher") rfl (fun _ => rfl) rfl

/-- Claim C8: given the downloaded archive in the scratch directory, the
Extractor writes every member under that directory and then unlinks the
archive file: afterwards the archive path is absent and every member is
present with its content (members have distinct paths and none shadows
the archive file itself). -/
theorem c8_extract_archive_contract (tmp : FPath) (w : World) (entries : List TarEntry)
    (harc : fsLookup w.fs (tmp ++ [FILENAME]) = some (.tarE entries))
    (hnd : (entries.map tarPath).Nodup)
    (hfn : ∀ e ∈ entries, tarPath e ≠ [FILENAME]) :
    ∃ wr, extract_archive tmp w = .ok () wr ∧
      fsLookup wr.fs (tmp ++ [FILENAME]) = none ∧
      ∀ e ∈ entries, fsLookup wr.fs (tmp ++ tarPath e) = some (tarData e) := by
  have hrun : extract_archive tmp w = .ok ()
      { fs := fsDelete (extractAll w.fs tmp entries) (tmp ++ [FILENAME]),
        output := w.output ++ ["Extracting...", "done"],
        events := w.events ++
          [.evRead (tmp ++ [FILENAME]), .evExtract tmp, .evUnlink (tmp ++ [FILENAME])] } := by
    simp only [extract_archive, harc]
  refine ⟨_, hrun, ?_, ?_⟩
  · exact fsLookup_fsDelete_self _ _
  · intro e he
    show fsLookup (fsDelete (extractAll w.fs tmp entries) (tmp ++ [FILENAME]))
      (tmp ++ tarPath e) = some (tarData e)
    rw [fsLookup_fsDelete_ne]
    · exact extractAll_lookup_mem w.fs tmp entries e he hnd
    · intro hc
      exact hfn e he (List.append_cancel_left hc)

/-- Claim C8, witness: a two-member archive extracts fully and the
archive file is gone. -/
theorem c8_extract_archive_contract_witness :
    ∃ wr, extract_archive tmpPath wExtract = .ok () wr ∧
      fsLookup wr.fs (tmpPath ++ [FILENAME]) = none ∧
      ∀ e ∈ stdEntries, fsLookup wr.fs (tmpPath ++ tarPath e) = some (tarData e) :=
  c8_extract_archive_contract tmpPath wExtract stdEntries rfl (by decide) (by decide)

/-- Claim C9: `build_deb` never inspects the exit status of the external
tool:
its result is unchanged under any exit status, it always completes, the
whole pipeline result is unchanged under any exit status, and a completed
run always ends by removing the scratch directory — regardless of whether
`dpkg-deb` succeeded or failed. -/
theorem c9_dpkg_exit_ignored (env : Env) (arch : String) (n m : Nat) :
    (∀ cwd tmp v a w, build_deb { env with dpkgExit := n } cwd tmp v a w =
        build_deb { env with dpkgExit := m } cwd tmp v a w) ∧
    (∀ cwd tmp v a w, resIsOk (build_deb { env with dpkgExit := n } cwd tmp v a w) = true) ∧
    mainRun { env with dpkgExit := n } arch = mainRun { env with dpkgExit := m } arch ∧
    (∀ w, mainRun env arch = .ok () w → w.events.getLast? = some (.evRmtree tmpPath)) := by
  refine ⟨fun cwd tmp v a w => rfl, fun cwd tmp v a w => rfl, rfl, ?_⟩
  intro w h
  obtain ⟨url, body, v, d, hu, hn, hv, hd, hev, hfs, htmp⟩ := mainRun_ok_inv env arch w h
  rw [hev]
  rfl

/-- Claim C9, witness: with an exit status of 2 and no output file written
by the tool, the run still completes and still removes the scratch tree. -/
theorem c9_dpkg_exit_ignored_witness :
    build_deb { env99 with dpkgExit := 7 } cwdPath tmpPath "9.9.9" "amd64" initWorld =
      build_deb { env99 with dpkgExit := 0 } cwdPath tmpPath "9.9.9" "amd64" initWorld ∧
    (resWorld (mainRun envDpkgFails "x86_64")).events.getLast? = some (.evRmtree tmpPath) :=
  ⟨(c9_dpkg_exit_ignored env99 "x86_64" 7 0).1 cwdPath tmpPath "9.9.9" "amd64" initWorld,
   (c9_dpkg_exit_ignored envDpkgFails "x86_64" 7 0).2.2.2
     (resWorld (mainRun envDpkgFails "x86_64")) rfl⟩

/-- Claim C10: in every successful run the same translated label `d`
(and the same version `v`) are interpolated both into the control file
content and into the `.deb` filename passed to `dpkg-deb`, because both
calls receive the one value `ARCH_TRANSLATE[arch]`. -/
theorem c10_label_consistency (env : Env) (arch : String) (w : World)
    (h : mainRun env arch = .ok () w) :
    ∃ v d, assocLookup ARCH_TRANSLATE arch = some d ∧
      (Event.evWrite (tmpPath ++ ["DEBIAN", "control"]) (.textE (DEB_CONTROL v d))) ∈ w.events ∧
      (Event.evRun ["dpkg-deb", "--build", pathStr tmpPath, DEB_FILE v d]) ∈ w.events := by
  obtain ⟨url, body, v, d, hu, hn, hv, hd, hev, hfs, htmp⟩ := mainRun_ok_inv env arch w h
  refine ⟨v, d, hd, ?_, ?_⟩
  · rw [hev]
    simp
  · rw [hev]
    simp

/-- Claim C10, witness: the happy `x86_64` run. -/
theorem c10_label_consistency_witness :
    ∃ v d, assocLookup ARCH_TRANSLATE "x86_64" = some d ∧
      (Event.evWrite (tmpPath ++ ["DEBIAN", "control"]) (.textE (DEB_CONTROL v d))) ∈
        (resWorld (mainRun env99 "x86_64")).events ∧
      (Event.evRun ["dpkg-deb", "--build", pathStr tmpPath, DEB_FILE v d]) ∈
        (resWorld (mainRun env99 "x86_64")).events :=
  c10_label_consistency env99 "x86_64" (resWorld (mainRun env99 "x86_64")) rfl
